import Mathlib

/-!
Shallow embedding of sgnlp/models/senticnet_gcn/utils.py.

The Python module prepares ABSA training data: it builds an embedding
matrix from a word-vector file (load_word_vec, build_embedding_matrix),
reads raw text triples fused with pickled dependency matrices
(ABSADatasetReader.__read_data__), wraps the examples in an indexable
container (ABSADataset), and groups them into padded batches
(BucketIterator.sort_and_pad / pad_batch_encoding / pad_data / __iter__).

Modelling conventions:
* Python strings are lists of characters; the needed Python string
  operations (lower, strip, split, partition, int parsing) are defined
  over List Char, faithful to CPython semantics on the ASCII inputs the
  claims use.
* A transformers BatchEncoding is a dictionary holding input_ids,
  token_type_ids and attention_mask (and, after pad_batch_encoding has
  run, the extra key attention_mask_pad).  Python len() of such a
  dictionary counts its keys; BatchEncoding.numKeys models that.
* pad_batch_encoding mutates its argument in place in the source (the
  dictionary entries are reassigned); pad_data is therefore embedded so
  that the dependency-matrix pad widths are computed from the already
  padded text encoding, exactly as the interleaving of lines 177 and
  182-201 of the source produces.
* The early return inside the per-item loop of pad_data (the return at
  line 202 of the source is indented under the for of line 168) is kept:
  the embedded pad_data builds a batch from the first item of a
  non-empty chunk and yields none for an empty chunk, where the Python
  function falls off the loop and returns None.
* Errors (IndexError, ValueError from int()) are none of an Option.
-/

namespace SenticGCN

/-- Python whitespace test for the characters str.strip and str.split
treat as separators; on the ASCII range this matches Char.isWhitespace. -/
def isPySpace (c : Char) : Bool :=
  c.isWhitespace

/-- Python str.lower, character by character (the inputs of interest are
ASCII, where Char.toLower matches CPython). -/
def pyLower (s : List Char) : List Char :=
  s.map Char.toLower

/-- Python str.strip with no arguments: drop leading and trailing
whitespace. -/
def pyStrip (s : List Char) : List Char :=
  ((s.dropWhile isPySpace).reverse.dropWhile isPySpace).reverse

/-- Python str.rstrip with no arguments: drop trailing whitespace. -/
def pyRstrip (s : List Char) : List Char :=
  (s.reverse.dropWhile isPySpace).reverse

/-- Worker for pySplit: acc holds the characters of the word currently
being read, in reverse. -/
def pySplitAux : List Char → List Char → List (List Char)
  | [], acc => if acc.isEmpty then [] else [acc.reverse]
  | c :: cs, acc =>
      if isPySpace c then
        if acc.isEmpty then pySplitAux cs [] else acc.reverse :: pySplitAux cs []
      else
        pySplitAux cs (c :: acc)

/-- Python str.split with no arguments: split on runs of whitespace,
discarding empty pieces. -/
def pySplit (s : List Char) : List (List Char) :=
  pySplitAux s []

/-- Python " ".join over a list of words. -/
def joinSpace : List (List Char) → List Char
  | [] => []
  | [t] => t
  | t :: ts => t ++ ' ' :: joinSpace ts

/-- Search worker for pyPartition: some (before, after) around the first
occurrence of sep, none when sep does not occur. -/
def pyPartitionGo (sep : List Char) : List Char → Option (List Char × List Char)
  | [] => none
  | c :: cs =>
      if sep.isPrefixOf (c :: cs) then some ([], (c :: cs).drop sep.length)
      else
        match pyPartitionGo sep cs with
        | some (pre, post) => some (c :: pre, post)
        | none => none

/-- Python str.partition(sep): split around the first occurrence of sep,
returning (head, sep, tail); when sep is absent, (whole, empty, empty). -/
def pyPartition (s sep : List Char) : List Char × List Char × List Char :=
  match pyPartitionGo sep s with
  | some (pre, post) => (pre, sep, post)
  | none => (s, [], [])

/-- Digit-run parser used by parseInt: all characters must be decimal
digits and at least one must be present, as Python int() demands. -/
def parseDigits (ds : List Char) : Option Nat :=
  if ds.isEmpty then none
  else if ds.all Char.isDigit then
    some (ds.foldl (fun a c => a * 10 + (c.toNat - 48)) 0)
  else none

/-- Python int() on an already stripped string: an optional sign followed
by decimal digits; anything else raises ValueError, modelled as none. -/
def parseInt : List Char → Option Int
  | '-' :: ds => (parseDigits ds).map (fun n => -(n : Int))
  | '+' :: ds => (parseDigits ds).map (fun n => (n : Int))
  | ds => (parseDigits ds).map (fun n => (n : Int))

/-- Python list subscription with an integer index: non-negative indices
address from the front, negative indices are offset by the length, and
anything still out of range raises IndexError (none here). -/
def pyListGet {α : Type} (l : List α) (i : Int) : Option α :=
  if i < 0 then
    let j := i + (l.length : Int)
    if j < 0 then none else l.get? j.toNat
  else l.get? i.toNat

/-- A transformers BatchEncoding as the module uses it: the tokenizer
returns the keys input_ids, token_type_ids and attention_mask;
pad_batch_encoding later adds the fourth key attention_mask_pad, which is
absent (none) on fresh tokenizer output.  Entries are integer sequences
(torch tensors and Python lists are both integer sequences here). -/
structure BatchEncoding where
  input_ids : List Int
  token_type_ids : List Int
  attention_mask : List Int
  attention_mask_pad : Option (List Int) := none
deriving DecidableEq

/-- Python len() applied to a BatchEncoding: BatchEncoding is a
dictionary (a UserDict), so len counts its keys - three from the
tokenizer, four once attention_mask_pad has been stored.  This is the
sort key sort_and_pad actually computes with len(x[self.sort_key]). -/
def BatchEncoding.numKeys (e : BatchEncoding) : Nat :=
  3 + (if e.attention_mask_pad.isSome then 1 else 0)

/-- One example dictionary as __read_data__ builds it: four tokenized
spans, the shifted polarity label, and the two dependency matrices
(rectangular integer matrices as lists of rows). -/
structure Example where
  text_indices : BatchEncoding
  context_indices : BatchEncoding
  aspect_indices : BatchEncoding
  left_indices : BatchEncoding
  polarity : Int
  dependency_graph : List (List Int)
  dependency_tree : List (List Int)
deriving DecidableEq

/-- The batch dictionary pad_data returns: per-field lists of padded
encodings, the polarity list, and the stacked dependency matrices. -/
structure Batch where
  text_indices : List BatchEncoding
  context_indices : List BatchEncoding
  aspect_indices : List BatchEncoding
  left_indices : List BatchEncoding
  polarity : List Int
  dependency_graph : List (List (List Int))
  dependency_tree : List (List (List Int))
deriving DecidableEq

/-- BucketIterator.pad_batch_encoding: extend input_ids with zeros up to
max_len, extend token_type_ids by a pad of the same size (the source
copies input_ids_pad, whose size comes from len(input_ids)), and store
attention_mask extended with ONES under the new key attention_mask_pad,
leaving the attention_mask entry itself untouched.  A pad count of
max_len minus a longer length is an empty list in Python ([1] * negative)
just as Nat subtraction truncates to zero here. -/
def pad_batch_encoding (data : BatchEncoding) (max_len : Nat) : BatchEncoding :=
  { input_ids := data.input_ids ++ List.replicate (max_len - data.input_ids.length) 0
    token_type_ids :=
      data.token_type_ids ++ List.replicate (max_len - data.input_ids.length) 0
    attention_mask := data.attention_mask
    attention_mask_pad :=
      some (data.attention_mask ++ List.replicate (max_len - data.attention_mask.length) 1) }

/-- Model of np.pad applied to a matrix with pad widths ((0, k), (0, k)):
every row gains k zeros on the right and k all-zero rows of the widened
width are appended. -/
def npPad2 (m : List (List Int)) (k : Nat) : List (List Int) :=
  m.map (fun row => row ++ List.replicate k (0 : Int))
    ++ List.replicate k (List.replicate ((m.headD []).length + k) (0 : Int))

/-- Python max over a list of naturals (max of the empty list raises,
but pad_data only applies it to non-empty batches, where foldl max 0
agrees with Python max). -/
def pyMax (l : List Nat) : Nat :=
  l.foldl max 0

/-- The max_len expression of pad_data (line 166 of the source): the
largest input_ids length of the sort-key field over the chunk. -/
def max_len_of (sortKey : Example → BatchEncoding) (batch_data : List Example) : Nat :=
  pyMax (batch_data.map (fun t => (sortKey t).input_ids.length))

/-- BucketIterator.pad_data.  max_len is the largest input_ids length of
the sort-key field over the whole chunk.  The source then loops over the
items, but the return statement sits inside the loop, so only the first
item is accumulated; for an empty chunk the loop body never runs and the
function returns None.  Because pad_batch_encoding reassigns the entries
of the encoding it is given (in-place mutation of the item), the
dependency-matrix pad width max_len - len(text_indices["input_ids"]),
evaluated after the text encoding was padded, sees the already padded
length. -/
def pad_data (sortKey : Example → BatchEncoding) (batch_data : List Example) :
    Option Batch :=
  match batch_data with
  | [] => none
  | item :: rest =>
      let max_len := max_len_of sortKey (item :: rest)
      let padded_text := pad_batch_encoding item.text_indices max_len
      let padded_context := pad_batch_encoding item.context_indices max_len
      let padded_aspect := pad_batch_encoding item.aspect_indices max_len
      let padded_left := pad_batch_encoding item.left_indices max_len
      let matrix_pad := max_len - padded_text.input_ids.length
      some
        { text_indices := [padded_text]
          context_indices := [padded_context]
          aspect_indices := [padded_aspect]
          left_indices := [padded_left]
          polarity := [item.polarity]
          dependency_graph := [npPad2 item.dependency_graph matrix_pad]
          dependency_tree := [npPad2 item.dependency_tree matrix_pad] }

/-- Stable insertion step: x is placed before the first element whose
key is not smaller, so elements with equal keys keep their original
relative order (Python sorted is stable). -/
def sInsertByKey {α : Type} (key : α → Nat) (x : α) : List α → List α
  | [] => [x]
  | y :: ys => if key y < key x then y :: sInsertByKey key x ys else x :: y :: ys

/-- Stable ascending sort by key, modelling Python sorted(data, key=...). -/
def sSortByKey {α : Type} (key : α → Nat) : List α → List α
  | [] => []
  | x :: xs => sInsertByKey key x (sSortByKey key xs)

/-- BucketIterator.sort_and_pad: the number of batches is the ceiling of
len(data) / batch_size; when self.sort is set the data is stable-sorted
by the key len(x[self.sort_key]) - the Python len of the BatchEncoding
dictionary, i.e. its key count, NOT the token count - and the sorted data
is cut into consecutive chunks of batch_size, each handed to pad_data.
batch_size is positive in every use (Python would raise
ZeroDivisionError at zero). -/
def sort_and_pad (sortKey : Example → BatchEncoding) (sort : Bool)
    (data : List Example) (batch_size : Nat) : List (Option Batch) :=
  let num_batch := (data.length + batch_size - 1) / batch_size
  let sorted_data :=
    if sort then sSortByKey (fun x => (sortKey x).numKeys) data else data
  (List.range num_batch).map
    (fun i => pad_data sortKey ((sorted_data.drop (i * batch_size)).take batch_size))

/-- BucketIterator.__iter__ after random.shuffle has (for shuffle=True)
permuted self.batches in place: the traversal yields batches[idx] for
idx in range(batch_len), batch_len being the length recorded at
construction.  The shuffled list is passed in explicitly, standing for
the permutation the global random generator produced. -/
def iterTraverse (shuffled : List (Option Batch)) (batch_len : Nat) :
    List (Option Batch) :=
  (List.range batch_len).map (fun idx => shuffled.getD idx none)

/-- ABSADataset holds the example list built by the reader. -/
structure ABSADataset where
  data : List Example
deriving DecidableEq

/-- ABSADataset.__len__: delegates to the Python len of the list. -/
def ABSADataset.len (d : ABSADataset) : Nat :=
  d.data.length

/-- ABSADataset.__getitem__: delegates to Python list subscription,
including its acceptance of negative indices; IndexError is none. -/
def ABSADataset.getitem (d : ABSADataset) (i : Int) : Option Example :=
  pyListGet d.data i

/-- The literal aspect marker of the raw file format. -/
def marker : List Char :=
  ['$', 'T', '$']

/-- Lower-case then strip, the normalisation s.lower().strip() the reader
applies to every span. -/
def lowerStrip (l : List Char) : List Char :=
  pyStrip (pyLower l)

/-- The normalised left context of a raw sentence line: the part of the
line before the first aspect marker, lower-cased and stripped. -/
def leftSpan (l : List Char) : List Char :=
  lowerStrip (pyPartition l marker).1

/-- The normalised right context of a raw sentence line: the part of the
line after the first aspect marker, lower-cased and stripped. -/
def rightSpan (l : List Char) : List Char :=
  lowerStrip (pyPartition l marker).2.2

/-- ABSADatasetReader.__read_data__: the raw lines are consumed three at
a time (for i in range(0, len(lines), 3)); line one is partitioned around
the marker and each part lower-cased and stripped, line two is the
aspect, line three the polarity, parsed by int() and shifted by one; the
four spans are tokenized and the dependency matrices are looked up at
the raw line index i of the first line of the triple.  A trailing
partial record raises IndexError and an unparsable polarity raises
ValueError, both none here; idx2graph and idx2tree are total maps,
standing for pickled dictionaries that contain every needed key. -/
def readData (tok : List Char → BatchEncoding)
    (idx2graph idx2tree : Nat → List (List Int)) :
    List (List Char) → Nat → Option (List Example)
  | [], _ => some []
  | l1 :: l2 :: l3 :: rest, i =>
      let text_left := leftSpan l1
      let text_right := rightSpan l1
      let aspect := lowerStrip l2
      match parseInt (lowerStrip l3) with
      | none => none
      | some m =>
          match readData tok idx2graph idx2tree rest (i + 3) with
          | none => none
          | some tail =>
              some
                ({ text_indices := tok (text_left ++ ' ' :: aspect ++ ' ' :: text_right)
                   context_indices := tok (text_left ++ ' ' :: text_right)
                   aspect_indices := tok aspect
                   left_indices := tok text_left
                   polarity := m + 1
                   dependency_graph := idx2graph i
                   dependency_tree := idx2tree i } :: tail)
  | _, _ => none

/-- load_word_vec: each line is right-stripped and split on whitespace;
the last embed_dim tokens form the vector and the remaining leading
tokens, joined by single spaces, form the word.  Only words present in
the vocabulary are kept, and a later line for the same word overwrites
an earlier one (dictionary assignment), which prepending to an
association list and looking up the first hit reproduces.  wordVecStep
is the body of the line loop of load_word_vec. -/
def wordVecStep (vocab : List (List Char × Nat)) (embed_dim : Nat)
    (word_vec : List (List Char × List (List Char))) (line : List Char) :
    List (List Char × List (List Char)) :=
  let tokens := pySplit (pyRstrip line)
  let word := joinSpace (tokens.take (tokens.length - embed_dim))
  let vec := tokens.drop (tokens.length - embed_dim)
  if vocab.any (fun p => p.1 = word) then (word, vec) :: word_vec else word_vec

def load_word_vec (lines : List (List Char)) (vocab : List (List Char × Nat))
    (embed_dim : Nat) : List (List Char × List (List Char)) :=
  lines.foldl (wordVecStep vocab embed_dim) []

/-- One iteration of the vocabulary loop of build_embedding_matrix: when
a vector was loaded for the word of the entry, overwrite the matrix row
at the index of the entry with the parsed vector. -/
def embedStep (parse : List Char → ℚ)
    (word_vec : List (List Char × List (List Char)))
    (matrix : List (List ℚ)) (p : List Char × Nat) : List (List ℚ) :=
  match List.lookup p.1 word_vec with
  | some vec => matrix.set p.2 (vec.map parse)
  | none => matrix

/-- build_embedding_matrix: start from the all-zero matrix of shape
(len(vocab), embed_dim), overwrite row 1 with the uniform random draw
(passed in explicitly as rand_row, standing for np.random.uniform), load
the word vectors, then for each vocabulary entry in order run embedStep.
parse stands for the float conversion np.asarray(vec, dtype=float32)
applies to each token.  List.set leaves the matrix unchanged at an
out-of-range index, where numpy would raise, so the theorems carry
in-range hypotheses. -/
def build_embedding_matrix (parse : List Char → ℚ) (rand_row : List ℚ)
    (lines : List (List Char)) (vocab : List (List Char × Nat))
    (embed_dim : Nat) : List (List ℚ) :=
  let base :=
    (List.replicate vocab.length (List.replicate embed_dim (0 : ℚ))).set 1 rand_row
  vocab.foldl (embedStep parse (load_word_vec lines vocab embed_dim)) base

/-- Specification predicate: e is orig padded to length n the way the
spec describes a padded encoding - the input ids are the original ids
followed by zeros, of length exactly n, and the padded attention mask
(the value stored under attention_mask_pad) is the original mask
followed by ones, of length exactly n. -/
def PaddedTo (orig e : BatchEncoding) (n : Nat) : Prop :=
  e.input_ids.length = n ∧
  e.input_ids = orig.input_ids ++ List.replicate (n - orig.input_ids.length) 0 ∧
  ∃ pm, e.attention_mask_pad = some pm ∧ pm.length = n ∧
    pm = orig.attention_mask ++ List.replicate (n - orig.attention_mask.length) 1

/-- Specification predicate for the reader: exs is one example per
consecutive line triple, in order; for the triple starting at raw line
index first + 3 * k, the polarity is the parsed integer of the third
line plus one, the four tokenizations are of the normalised spans of the
first two lines, and the dependency matrices are the map values at the
raw line index of the first line of the triple. -/
def tripleProp (tok : List Char → BatchEncoding)
    (idx2graph idx2tree : Nat → List (List Int)) (first : Nat)
    (lines : List (List Char)) (exs : List Example) : Prop :=
  3 * exs.length = lines.length ∧
  ∀ k (hk : k < exs.length),
    ∃ m, parseInt (lowerStrip (lines.getD (3 * k + 2) [])) = some m ∧
      exs.get ⟨k, hk⟩ =
        { text_indices := tok (leftSpan (lines.getD (3 * k) []) ++ ' ' ::
            lowerStrip (lines.getD (3 * k + 1) []) ++ ' ' ::
            rightSpan (lines.getD (3 * k) []))
          context_indices := tok (leftSpan (lines.getD (3 * k) []) ++ ' ' ::
            rightSpan (lines.getD (3 * k) []))
          aspect_indices := tok (lowerStrip (lines.getD (3 * k + 1) []))
          left_indices := tok (leftSpan (lines.getD (3 * k) []))
          polarity := m + 1
          dependency_graph := idx2graph (first + 3 * k)
          dependency_tree := idx2tree (first + 3 * k) }

/-- A small deterministic tokenizer used by the concrete witness inputs:
every character becomes one id, the auxiliary sequences are empty. -/
def tok0 : List Char → BatchEncoding := fun s =>
  { input_ids := s.map (fun c => (c.toNat : Int))
    token_type_ids := []
    attention_mask := []
    attention_mask_pad := none }

/-- Concrete dependency-graph map for witnesses. -/
def g0 : Nat → List (List Int) := fun n => [[(n : Int)]]

/-- Concrete dependency-tree map for witnesses. -/
def t0 : Nat → List (List Int) := fun n => [[(n : Int) + 1]]

/-- The raw lines of the end-to-end example of the spec: one triple. -/
def lines0 : List (List Char) :=
  ["great $T$ food".data, "pizza".data, "1".data]

/-- The example the reader is expected to produce from lines0. -/
def ex0 : Example :=
  { text_indices := tok0 "great pizza food".data
    context_indices := tok0 "great food".data
    aspect_indices := tok0 "pizza".data
    left_indices := tok0 "great".data
    polarity := 2
    dependency_graph := g0 0
    dependency_tree := t0 0 }

/-- A fresh tokenizer-style encoding with the given ids, all-zero token
types and all-one attention mask of the same length. -/
def encN (ids : List Int) : BatchEncoding :=
  { input_ids := ids
    token_type_ids := ids.map (fun _ => 0)
    attention_mask := ids.map (fun _ => 1)
    attention_mask_pad := none }

/-- Concrete example with tokenized full-text length 1, polarity 0 and
one-by-one dependency matrices. -/
def exA : Example :=
  { text_indices := encN [1]
    context_indices := encN [1]
    aspect_indices := encN [1]
    left_indices := encN []
    polarity := 0
    dependency_graph := [[9]]
    dependency_tree := [[8]] }

/-- Concrete example with tokenized full-text length 2 and polarity 2. -/
def exB : Example :=
  { text_indices := encN [1, 2]
    context_indices := encN [1]
    aspect_indices := encN [1]
    left_indices := encN []
    polarity := 2
    dependency_graph := [[7]]
    dependency_tree := [[6]] }

/-- Concrete example with tokenized full-text length 3. -/
def exL3 : Example :=
  { text_indices := encN [1, 2, 3]
    context_indices := encN [1]
    aspect_indices := encN [1]
    left_indices := encN []
    polarity := 1
    dependency_graph := [[1]]
    dependency_tree := [[1]] }

/-- The batch pad_data builds from the chunk [exA, exB]: max_len is 2
and only exA is accumulated, its text encoding padded in place before
the matrix pad width is computed. -/
def batchAB : Batch :=
  { text_indices := [pad_batch_encoding exA.text_indices 2]
    context_indices := [pad_batch_encoding exA.context_indices 2]
    aspect_indices := [pad_batch_encoding exA.aspect_indices 2]
    left_indices := [pad_batch_encoding exA.left_indices 2]
    polarity := [0]
    dependency_graph := [npPad2 exA.dependency_graph 0]
    dependency_tree := [npPad2 exA.dependency_tree 0] }

/-- Token parser for the concrete embedding-matrix inputs. -/
def parse7 : List Char → ℚ := fun w => if w = ['7'] then 7 else 0

/-- Concrete two-word vocabulary mapping x to row 0 and y to row 1. -/
def vocabXY : List (List Char × Nat) :=
  [("x".data, 0), ("y".data, 1)]

/-- Concrete vector file with a single line assigning the vector (7) to
the vocabulary word x, whose index is 0. -/
def linesX : List (List Char) :=
  ["x 7".data]

/-- Padding an encoding whose id and mask sequences are no longer than
the target length yields an encoding the PaddedTo predicate accepts. -/
theorem paddedTo_pad_batch_encoding (orig : BatchEncoding) (n : Nat)
    (h1 : orig.input_ids.length ≤ n) (h2 : orig.attention_mask.length ≤ n) :
    PaddedTo orig (pad_batch_encoding orig n) n := by
  refine ⟨?_, rfl, ?_⟩
  · simp only [pad_batch_encoding, List.length_append, List.length_replicate]
    omega
  · refine ⟨_, rfl, ?_, rfl⟩
    simp only [List.length_append, List.length_replicate]
    omega

/-- Mapping getD over the range of the length of a list returns the list
itself. -/
theorem range_map_getD {α : Type} (l : List α) (d : α) :
    (List.range l.length).map (fun i => l.getD i d) = l := by
  induction l with
  | nil => rfl
  | cons a t ih =>
      rw [List.length_cons, List.range_succ_eq_map, List.map_cons, List.map_map]
      have hc : ((fun i => (a :: t).getD i d) ∘ Nat.succ) = fun i => t.getD i d := by
        funext i
        simp [List.getD_cons_succ]
      rw [hc, ih]
      rfl

/-- C8: ABSADataset reports the example count as its length; getitem at
a non-negative in-range index returns the example at that position of
the original list unchanged; and getitem at an index that is out of
range for Python list subscription (at least the length, or below minus
the length) fails with IndexError, modelled as none. -/
theorem c8_absadataset_access (d : ABSADataset) :
    d.len = d.data.length ∧
    (∀ (i : Nat) (h : i < d.data.length),
      d.getitem (i : Int) = some (d.data.get ⟨i, h⟩)) ∧
    (∀ i : Int, ((d.data.length : Int) ≤ i ∨ i < -(d.data.length : Int)) →
      d.getitem i = none) := by
  refine ⟨rfl, ?_, ?_⟩
  · intro i h
    simp only [ABSADataset.getitem, pyListGet]
    rw [if_neg (by omega : ¬ ((i : Int) < 0))]
    simp only [Int.toNat_natCast, List.get?_eq_getElem?, List.getElem?_eq_getElem h,
      List.get_eq_getElem]
  · intro i hi
    simp only [ABSADataset.getitem, pyListGet]
    rcases hi with hge | hlt
    · rw [if_neg (by omega : ¬ (i < 0)), List.get?_eq_getElem?]
      exact List.getElem?_eq_none (by omega)
    · rw [if_pos (by omega : i < 0),
        if_pos (by omega : i + (d.data.length : Int) < 0)]

/-- C10: getitem accepts negative indices in the Python way: for an
index i with minus the length at most i below zero, getitem returns the
example at position length + i rather than failing. -/
theorem c10_negative_indexing (d : ABSADataset) (i : Int)
    (h1 : -(d.data.length : Int) ≤ i) (h2 : i < 0) :
    ∃ h : (i + (d.data.length : Int)).toNat < d.data.length,
      d.getitem i = some (d.data.get ⟨(i + (d.data.length : Int)).toNat, h⟩) := by
  have hlt : (i + (d.data.length : Int)).toNat < d.data.length := by omega
  refine ⟨hlt, ?_⟩
  simp only [ABSADataset.getitem, pyListGet]
  rw [if_pos h2, if_neg (by omega : ¬ (i + (d.data.length : Int) < 0))]
  simp only [List.get?_eq_getElem?, List.getElem?_eq_getElem hlt, List.get_eq_getElem]

/-- Witness for C10 at the concrete one-example dataset and index -1. -/
theorem c10_negative_indexing_witness :
    ∃ h : ((-1 : Int) + ((ABSADataset.mk [exA]).data.length : Int)).toNat <
        (ABSADataset.mk [exA]).data.length,
      (ABSADataset.mk [exA]).getitem (-1) =
        some ((ABSADataset.mk [exA]).data.get
          ⟨((-1 : Int) + ((ABSADataset.mk [exA]).data.length : Int)).toNat, h⟩) :=
  c10_negative_indexing ⟨[exA]⟩ (-1) (by decide) (by decide)

/-- C1, behavior at the failing input: for the two-example dataset
[exA, exB] with polarity labels 0 and 2 and batch size 2, construction
produces the expected ceil(2 / 2) = 1 batch, but the early return inside
the item loop of pad_data accumulates only the first item, so the batch
carries the polarity list [0] instead of [0, 2]: the label multiset of
the dataset is not preserved. -/
theorem c1_pad_data_early_return :
    (sort_and_pad Example.text_indices true [exA, exB] 2).map
        (Option.map Batch.polarity) = [some [0]] ∧
    [exA, exB].map Example.polarity = [0, 2] := by
  decide

/-- C3, behavior at the failing input: in the chunk [exA, exB] the batch
max_len is 2, yet the one-by-one dependency matrices of exA are returned
unpadded, because the matrix pad width max_len minus the text length is
computed after pad_batch_encoding already padded the text encoding in
place to max_len, so the width is always zero. -/
theorem c3_matrices_not_padded :
    (pad_data Example.text_indices [exA, exB]).map Batch.dependency_graph =
      some [[[9]]] ∧
    (pad_data Example.text_indices [exA, exB]).map Batch.dependency_tree =
      some [[[8]]] ∧
    max_len_of Example.text_indices [exA, exB] = 2 := by
  decide

/-- C4, behavior at the failing input: the dataset [exL3, exA] has
tokenized full-text lengths 3 then 1, and both encodings have the same
Python dictionary length (key count), which is what the sort key
len(x[self.sort_key]) measures; with sort=True and batch size 1 the
batches therefore keep the original order, with lengths 3 then 1 instead
of the ascending 1 then 3. -/
theorem c4_sort_key_is_key_count :
    (sort_and_pad Example.text_indices true [exL3, exA] 1).map
        (Option.map (fun b => b.text_indices.map (fun e => e.input_ids.length))) =
      [some [3], some [1]] ∧
    exL3.text_indices.numKeys = exA.text_indices.numKeys := by
  decide

/-- C9: pad_batch_encoding leaves the attention_mask entry of the
encoding unchanged and stores the padded mask under the separate key
attention_mask_pad; only the input_ids and token_type_ids entries are
replaced, by padded sequences of length max_len. -/
theorem c9_attention_mask_untouched (e : BatchEncoding) (max_len : Nat)
    (hids : e.input_ids.length ≤ max_len)
    (htt : e.token_type_ids.length = e.input_ids.length) :
    (pad_batch_encoding e max_len).attention_mask = e.attention_mask ∧
    (pad_batch_encoding e max_len).attention_mask_pad =
      some (e.attention_mask ++
        List.replicate (max_len - e.attention_mask.length) 1) ∧
    (pad_batch_encoding e max_len).input_ids =
      e.input_ids ++ List.replicate (max_len - e.input_ids.length) 0 ∧
    (pad_batch_encoding e max_len).input_ids.length = max_len ∧
    (pad_batch_encoding e max_len).token_type_ids =
      e.token_type_ids ++ List.replicate (max_len - e.input_ids.length) 0 ∧
    (pad_batch_encoding e max_len).token_type_ids.length = max_len := by
  refine ⟨rfl, rfl, rfl, ?_, rfl, ?_⟩
  · simp only [pad_batch_encoding, List.length_append, List.length_replicate]
    omega
  · simp only [pad_batch_encoding, List.length_append, List.length_replicate]
    omega

/-- Witness for C9 at the concrete encoding with ids of length one and
target length two. -/
theorem c9_attention_mask_untouched_witness :
    (pad_batch_encoding (encN [1]) 2).attention_mask = (encN [1]).attention_mask ∧
    (pad_batch_encoding (encN [1]) 2).attention_mask_pad =
      some ((encN [1]).attention_mask ++
        List.replicate (2 - (encN [1]).attention_mask.length) 1) ∧
    (pad_batch_encoding (encN [1]) 2).input_ids =
      (encN [1]).input_ids ++ List.replicate (2 - (encN [1]).input_ids.length) 0 ∧
    (pad_batch_encoding (encN [1]) 2).input_ids.length = 2 ∧
    (pad_batch_encoding (encN [1]) 2).token_type_ids =
      (encN [1]).token_type_ids ++
        List.replicate (2 - (encN [1]).input_ids.length) 0 ∧
    (pad_batch_encoding (encN [1]) 2).token_type_ids.length = 2 :=
  c9_attention_mask_untouched (encN [1]) 2 (by decide) (by decide)

/-- C2: for a non-empty chunk whose field sequences are no longer than
the batch max_len (the largest tokenized full-text length of the chunk),
every encoding pad_data places in the batch dictionary satisfies the
padding contract: input ids are the original ids extended by zeros to
length exactly max_len, and the padded attention mask is the original
mask extended by ones to length exactly max_len. -/
theorem c2_pad_data_padding_correct (item : Example) (rest : List Example)
    (b : Batch)
    (hb : pad_data Example.text_indices (item :: rest) = some b)
    (hlen : ∀ f ∈ [item.text_indices, item.context_indices,
        item.aspect_indices, item.left_indices],
      f.input_ids.length ≤ max_len_of Example.text_indices (item :: rest) ∧
      f.attention_mask.length ≤ max_len_of Example.text_indices (item :: rest)) :
    (∀ e ∈ b.text_indices,
      PaddedTo item.text_indices e (max_len_of Example.text_indices (item :: rest))) ∧
    (∀ e ∈ b.context_indices,
      PaddedTo item.context_indices e (max_len_of Example.text_indices (item :: rest))) ∧
    (∀ e ∈ b.aspect_indices,
      PaddedTo item.aspect_indices e (max_len_of Example.text_indices (item :: rest))) ∧
    (∀ e ∈ b.left_indices,
      PaddedTo item.left_indices e (max_len_of Example.text_indices (item :: rest))) := by
  simp only [pad_data, Option.some.injEq] at hb
  subst hb
  refine ⟨?_, ?_, ?_, ?_⟩ <;> intro e he <;> simp only [List.mem_singleton] at he <;>
    subst he
  · exact paddedTo_pad_batch_encoding _ _ (hlen _ (by simp)).1 (hlen _ (by simp)).2
  · exact paddedTo_pad_batch_encoding _ _ (hlen _ (by simp)).1 (hlen _ (by simp)).2
  · exact paddedTo_pad_batch_encoding _ _ (hlen _ (by simp)).1 (hlen _ (by simp)).2
  · exact paddedTo_pad_batch_encoding _ _ (hlen _ (by simp)).1 (hlen _ (by simp)).2

/-- Witness for C2 at the concrete chunk [exA, exB], whose batch is
batchAB with max_len two. -/
theorem c2_pad_data_padding_correct_witness :
    (∀ e ∈ batchAB.text_indices,
      PaddedTo exA.text_indices e (max_len_of Example.text_indices [exA, exB])) ∧
    (∀ e ∈ batchAB.context_indices,
      PaddedTo exA.context_indices e (max_len_of Example.text_indices [exA, exB])) ∧
    (∀ e ∈ batchAB.aspect_indices,
      PaddedTo exA.aspect_indices e (max_len_of Example.text_indices [exA, exB])) ∧
    (∀ e ∈ batchAB.left_indices,
      PaddedTo exA.left_indices e (max_len_of Example.text_indices [exA, exB])) :=
  c2_pad_data_padding_correct exA [exB] batchAB (by decide) (by decide)

/-- C7: a traversal of the iterator yields exactly the entries of the
(in-place shuffled) batch list, in the shuffled order: random.shuffle
only permutes the precomputed batch list, so any two traversals t1 and
t2 (each a permutation of the constructed batches) yield equal multisets
of batch dictionaries, every precomputed batch appearing with its
original multiplicity - contents are never altered, only the order
varies. -/
theorem c7_shuffle_only_reorders (batches t1 t2 : List (Option Batch))
    (h1 : t1.Perm batches) (h2 : t2.Perm batches) :
    iterTraverse t1 batches.length = t1 ∧
    (↑(iterTraverse t1 batches.length) : Multiset (Option Batch)) =
      (↑(iterTraverse t2 batches.length) : Multiset (Option Batch)) ∧
    ∀ b : Option Batch,
      Multiset.count b ↑(iterTraverse t1 batches.length) =
        Multiset.count b ↑batches := by
  have e1 : iterTraverse t1 batches.length = t1 := by
    rw [iterTraverse, ← h1.length_eq]
    exact range_map_getD t1 none
  have e2 : iterTraverse t2 batches.length = t2 := by
    rw [iterTraverse, ← h2.length_eq]
    exact range_map_getD t2 none
  refine ⟨e1, ?_, ?_⟩
  · rw [e1, e2]
    exact Multiset.coe_eq_coe.mpr (h1.trans h2.symm)
  · intro b
    rw [e1, Multiset.coe_eq_coe.mpr h1]

/-- Witness for C7 at a concrete singleton batch list with the identity
permutation for both traversals. -/
theorem c7_shuffle_only_reorders_witness :
    iterTraverse [some batchAB] ([some batchAB] : List (Option Batch)).length =
      [some batchAB] ∧
    (↑(iterTraverse [some batchAB] ([some batchAB] : List (Option Batch)).length) :
        Multiset (Option Batch)) =
      (↑(iterTraverse [some batchAB] ([some batchAB] : List (Option Batch)).length) :
        Multiset (Option Batch)) ∧
    ∀ b : Option Batch,
      Multiset.count b
          ↑(iterTraverse [some batchAB]
            ([some batchAB] : List (Option Batch)).length) =
        Multiset.count b ↑([some batchAB] : List (Option Batch)) :=
  c7_shuffle_only_reorders [some batchAB] [some batchAB] [some batchAB]
    (List.Perm.refl _) (List.Perm.refl _)

/-- Dropping three leading elements of a cons-cons-cons list under getD. -/
theorem getD_cons3 {α : Type} (a b c : α) (ls : List α) (n : Nat) (d : α) :
    (a :: b :: c :: ls).getD (n + 3) d = ls.getD n d :=
  rfl

/-- The reader returns the empty example list only on the empty raw
file. -/
theorem readData_nil_inv (tok : List Char → BatchEncoding)
    (idx2graph idx2tree : Nat → List (List Int)) (lines : List (List Char))
    (i : Nat) (h : readData tok idx2graph idx2tree lines i = some []) :
    lines = [] := by
  match lines with
  | [] => rfl
  | [a] => simp [readData] at h
  | [a, b] => simp [readData] at h
  | a :: b :: c :: rest =>
      simp only [readData] at h
      split at h
      · exact absurd h (by simp)
      · split at h
        · exact absurd h (by simp)
        · exact absurd h (by simp)

/-- Inversion of the reader on a non-empty result: the raw lines start
with a triple, the polarity of the triple parses, the head example is
built from the triple at raw index i, and the tail is read from the
remaining lines at raw index i + 3. -/
theorem readData_cons_inv (tok : List Char → BatchEncoding)
    (idx2graph idx2tree : Nat → List (List Int)) (lines : List (List Char))
    (i : Nat) (e : Example) (exs : List Example)
    (h : readData tok idx2graph idx2tree lines i = some (e :: exs)) :
    ∃ l1 l2 l3 rest m,
      lines = l1 :: l2 :: l3 :: rest ∧
      parseInt (lowerStrip l3) = some m ∧
      e = { text_indices := tok (leftSpan l1 ++ ' ' :: lowerStrip l2 ++ ' ' ::
              rightSpan l1)
            context_indices := tok (leftSpan l1 ++ ' ' :: rightSpan l1)
            aspect_indices := tok (lowerStrip l2)
            left_indices := tok (leftSpan l1)
            polarity := m + 1
            dependency_graph := idx2graph i
            dependency_tree := idx2tree i } ∧
      readData tok idx2graph idx2tree rest (i + 3) = some exs := by
  match lines with
  | [] => simp [readData] at h
  | [a] => simp [readData] at h
  | [a, b] => simp [readData] at h
  | a :: b :: c :: rest =>
      simp only [readData] at h
      split at h
      · exact absurd h (by simp)
      · rename_i m hm
        split at h
        · exact absurd h (by simp)
        · rename_i tail htail
          simp only [Option.some.injEq, List.cons.injEq] at h
          exact ⟨a, b, c, rest, m, rfl, hm, h.1.symm,
            htail.trans (congrArg some h.2)⟩

/-- The reader satisfies tripleProp from any starting raw line index. -/
theorem readData_tripleProp (tok : List Char → BatchEncoding)
    (idx2graph idx2tree : Nat → List (List Int)) :
    ∀ (exs : List Example) (lines : List (List Char)) (i : Nat),
      readData tok idx2graph idx2tree lines i = some exs →
      tripleProp tok idx2graph idx2tree i lines exs := by
  intro exs
  induction exs with
  | nil =>
      intro lines i h
      have hl : lines = [] := readData_nil_inv tok idx2graph idx2tree lines i h
      subst hl
      exact ⟨rfl, fun k hk => (Nat.not_lt_zero k hk).elim⟩
  | cons e exs ih =>
      intro lines i h
      obtain ⟨l1, l2, l3, rest, m, hl, hm, he, hrest⟩ :=
        readData_cons_inv tok idx2graph idx2tree lines i e exs h
      subst hl
      obtain ⟨hlen, hP⟩ := ih rest (i + 3) hrest
      constructor
      · simp only [List.length_cons]
        omega
      · intro k hk
        cases k with
        | zero => exact ⟨m, hm, he⟩
        | succ k =>
            have h1 : 3 * (k + 1) = 3 * k + 3 := by ring
            have h4 : i + 3 * (k + 1) = i + 3 + 3 * k := by ring
            rw [h4, h1]
            have h2 : 3 * k + 3 + 1 = 3 * k + 1 + 3 := by ring
            have h3 : 3 * k + 3 + 2 = 3 * k + 2 + 3 := by ring
            rw [h2, h3, getD_cons3, getD_cons3, getD_cons3]
            have hk' : k < exs.length := by
              simp only [List.length_cons] at hk
              omega
            exact hP k hk'

/-- C6: when the reader succeeds on a raw file, it produced one example
per consecutive line triple in order; each example stores the parsed
polarity integer plus one, tokenizes the lower-cased stripped left
context, aspect and right context as full text, context (aspect
removed), aspect alone and left context alone, and takes its dependency
matrices from the pickled maps at the raw line index of the first line
of its triple (0, 3, 6, and so on). -/
theorem c6_reader_triples (tok : List Char → BatchEncoding)
    (idx2graph idx2tree : Nat → List (List Int)) (lines : List (List Char))
    (exs : List Example)
    (h : readData tok idx2graph idx2tree lines 0 = some exs) :
    tripleProp tok idx2graph idx2tree 0 lines exs :=
  readData_tripleProp tok idx2graph idx2tree exs lines 0 h

/-- Witness for C6 at the end-to-end example of the spec: the raw lines
are the sentence with marker, the aspect pizza and the polarity 1, and
the reader produces the single expected example with polarity 2. -/
theorem c6_reader_triples_witness :
    readData tok0 g0 t0 lines0 0 = some [ex0] ∧
    tripleProp tok0 g0 t0 0 lines0 [ex0] :=
  ⟨by decide, c6_reader_triples tok0 g0 t0 lines0 [ex0] (by decide)⟩

/-- One vocabulary step preserves the number of matrix rows. -/
theorem embedStep_length (parse : List Char → ℚ)
    (wv : List (List Char × List (List Char))) (M : List (List ℚ))
    (p : List Char × Nat) : (embedStep parse wv M p).length = M.length := by
  unfold embedStep
  split
  · exact List.length_set M _ _
  · rfl

/-- The vocabulary fold preserves the number of matrix rows. -/
theorem embedFold_length (parse : List Char → ℚ)
    (wv : List (List Char × List (List Char))) :
    ∀ (l : List (List Char × Nat)) (M : List (List ℚ)),
      (l.foldl (embedStep parse wv) M).length = M.length := by
  intro l
  induction l with
  | nil => intro M; rfl
  | cons q rest ih =>
      intro M
      rw [List.foldl_cons, ih, embedStep_length]

/-- A matrix row whose index belongs to no looked-up vocabulary entry is
left alone by the vocabulary fold. -/
theorem embedFold_getElem?_of_none (parse : List Char → ℚ)
    (wv : List (List Char × List (List Char))) (j : Nat) :
    ∀ (l : List (List Char × Nat)) (M : List (List ℚ)),
      (∀ p ∈ l, p.2 = j → List.lookup p.1 wv = none) →
      (l.foldl (embedStep parse wv) M)[j]? = M[j]? := by
  intro l
  induction l with
  | nil => intro M _; rfl
  | cons q rest ih =>
      intro M h
      rw [List.foldl_cons, ih _ (fun p hp => h p (List.mem_cons_of_mem q hp))]
      unfold embedStep
      split
      · rename_i vec hvec
        have hne : q.2 ≠ j := by
          intro hq
          rw [h q (List.mem_cons_self q rest) hq] at hvec
          cases hvec
        exact List.getElem?_set_ne hne
      · rfl

/-- A matrix row whose index belongs to a vocabulary entry with a loaded
vector ends as that parsed vector, provided the vocabulary indices are
distinct and the row exists. -/
theorem embedFold_getElem?_of_some (parse : List Char → ℚ)
    (wv : List (List Char × List (List Char))) (w : List Char) (j : Nat)
    (vec : List (List Char)) (hvec : List.lookup w wv = some vec) :
    ∀ (l : List (List Char × Nat)) (M : List (List ℚ)),
      (w, j) ∈ l → (l.map Prod.snd).Nodup → j < M.length →
      (l.foldl (embedStep parse wv) M)[j]? = some (vec.map parse) := by
  intro l
  induction l with
  | nil => intro M hmem _ _; exact absurd hmem (List.not_mem_nil _)
  | cons q rest ih =>
      intro M hmem hnd hj
      have hnd' : q.2 ∉ rest.map Prod.snd ∧ (rest.map Prod.snd).Nodup := by
        rw [List.map_cons, List.nodup_cons] at hnd
        exact hnd
      rw [List.foldl_cons]
      rcases List.mem_cons.mp hmem with hq | hmem'
      · have hqq : q = (w, j) := hq.symm
        subst hqq
        have hstep : embedStep parse wv M (w, j) = M.set j (vec.map parse) := by
          unfold embedStep
          rw [hvec]
        rw [hstep]
        rw [embedFold_getElem?_of_none parse wv j rest _ ?_]
        · exact List.getElem?_set_self (by simpa using hj)
        · intro p hp hpj
          have hmap : p.2 ∈ rest.map Prod.snd := List.mem_map_of_mem Prod.snd hp
          rw [hpj] at hmap
          exact absurd hmap hnd'.1
      · exact ih (embedStep parse wv M q) hmem' hnd'.2
          (by rw [embedStep_length]; exact hj)

/-- Every row of the folded matrix is either a row of the start matrix
or one parsed from a loaded vector. -/
theorem embedFold_mem_rows (parse : List Char → ℚ)
    (wv : List (List Char × List (List Char))) :
    ∀ (l : List (List Char × Nat)) (M : List (List ℚ))
      (row : List ℚ), row ∈ l.foldl (embedStep parse wv) M →
      row ∈ M ∨ ∃ vec, (∃ w, List.lookup w wv = some vec) ∧ row = vec.map parse := by
  intro l
  induction l with
  | nil => intro M row h; exact Or.inl h
  | cons q rest ih =>
      intro M row h
      rw [List.foldl_cons] at h
      rcases ih _ row h with hmem | hvec
      · unfold embedStep at hmem
        split at hmem
        · rename_i vec hvec
          rcases List.mem_or_eq_of_mem_set hmem with h1 | h2
          · exact Or.inl h1
          · exact Or.inr ⟨vec, ⟨q.1, hvec⟩, h2⟩
        · exact Or.inl hmem
      · exact Or.inr hvec

/-- A successful lookup means the pair is in the association list. -/
theorem mem_of_lookup_some {β : Type} {l : List (List Char × β)}
    {w : List Char} {b : β} (h : List.lookup w l = some b) : (w, b) ∈ l := by
  obtain ⟨l1, l2, hl, -⟩ := List.lookup_eq_some_iff.mp h
  rw [hl]
  exact List.mem_append_right l1 (List.mem_cons_self _ l2)

/-- Every vector load_word_vec keeps has exactly embed_dim tokens, as
long as every line splits into at least embed_dim tokens. -/
theorem load_word_vec_vec_length (vocab : List (List Char × Nat))
    (embed_dim : Nat) :
    ∀ (lines : List (List Char)) (acc : List (List Char × List (List Char))),
      (∀ q ∈ acc, q.2.length = embed_dim) →
      (∀ line ∈ lines, embed_dim ≤ (pySplit (pyRstrip line)).length) →
      ∀ q ∈ lines.foldl (wordVecStep vocab embed_dim) acc,
        q.2.length = embed_dim := by
  intro lines
  induction lines with
  | nil => intro acc hacc _ q hq; exact hacc q hq
  | cons line rest ih =>
      intro acc hacc hlines q hq
      rw [List.foldl_cons] at hq
      refine ih _ ?_ (fun l hl => hlines l (List.mem_cons_of_mem _ hl)) q hq
      intro r hr
      simp only [wordVecStep] at hr
      split at hr
      · rcases List.mem_cons.mp hr with h1 | h2
        · rw [h1]
          simp only [List.length_drop]
          have := hlines line (List.mem_cons_self _ _)
          omega
        · exact hacc r h2
      · exact hacc r hr

/-- C5, counterexample to the claim as stated: for the vocabulary
mapping x to index 0 and y to index 1 and a vector file containing a
line for x, row 0 of the built matrix is the parsed vector (7), not the
all-zero row: the loop overwrites the reserved padding row because the
word at index 0 has a line in the file. -/
theorem c5_row_zero_overwritten :
    build_embedding_matrix parse7 [(5 : ℚ)] linesX vocabXY 1 =
      [[(7 : ℚ)], [(5 : ℚ)]] ∧
    ([(7 : ℚ)] ≠ List.replicate 1 (0 : ℚ)) := by
  decide

/-- C5, amended: for distinct in-range vocabulary indices, a random row
of width embed_dim and lines of at least embed_dim tokens, the built
matrix has len(vocab) rows of width embed_dim each; row 0 is all zero
provided the word at index 0 has no loaded vector; row 1 is the random
draw provided the word at index 1 has no loaded vector; the row of every
vocabulary word with a loaded vector (the vector of its last line in the
file) is that parsed vector; and the row of every vocabulary word
without a loaded vector, index 1 aside, stays all zero. -/
theorem c5_embedding_matrix (parse : List Char → ℚ) (rand_row : List ℚ)
    (lines : List (List Char)) (vocab : List (List Char × Nat)) (embed_dim : Nat)
    (hnd : (vocab.map Prod.snd).Nodup)
    (hidx : ∀ p ∈ vocab, p.2 < vocab.length)
    (hrand : rand_row.length = embed_dim)
    (hline : ∀ line ∈ lines, embed_dim ≤ (pySplit (pyRstrip line)).length) :
    (build_embedding_matrix parse rand_row lines vocab embed_dim).length =
      vocab.length ∧
    (∀ row ∈ build_embedding_matrix parse rand_row lines vocab embed_dim,
      row.length = embed_dim) ∧
    ((∀ p ∈ vocab, p.2 = 0 →
        List.lookup p.1 (load_word_vec lines vocab embed_dim) = none) →
      0 < vocab.length →
      (build_embedding_matrix parse rand_row lines vocab embed_dim)[0]? =
        some (List.replicate embed_dim (0 : ℚ))) ∧
    ((∀ p ∈ vocab, p.2 = 1 →
        List.lookup p.1 (load_word_vec lines vocab embed_dim) = none) →
      1 < vocab.length →
      (build_embedding_matrix parse rand_row lines vocab embed_dim)[1]? =
        some rand_row) ∧
    (∀ p ∈ vocab, ∀ vec,
      List.lookup p.1 (load_word_vec lines vocab embed_dim) = some vec →
      (build_embedding_matrix parse rand_row lines vocab embed_dim)[p.2]? =
        some (vec.map parse)) ∧
    (∀ p ∈ vocab, p.2 ≠ 1 →
      List.lookup p.1 (load_word_vec lines vocab embed_dim) = none →
      (build_embedding_matrix parse rand_row lines vocab embed_dim)[p.2]? =
        some (List.replicate embed_dim (0 : ℚ))) := by
  refine ⟨?_, ?_, ?_, ?_, ?_, ?_⟩
  · unfold build_embedding_matrix
    rw [embedFold_length, List.length_set, List.length_replicate]
  · intro row hrow
    unfold build_embedding_matrix at hrow
    rcases embedFold_mem_rows parse _ vocab _ row hrow with hbase | ⟨vec, ⟨w, hvw⟩, hrw⟩
    · rcases List.mem_or_eq_of_mem_set hbase with h1 | h2
      · rw [List.eq_of_mem_replicate h1]
        exact List.length_replicate embed_dim 0
      · rw [h2]
        exact hrand
    · rw [hrw, List.length_map]
      exact load_word_vec_vec_length vocab embed_dim lines []
        (fun q hq => absurd hq (List.not_mem_nil q)) hline (w, vec)
        (mem_of_lookup_some hvw)
  · intro h0 hlen0
    unfold build_embedding_matrix
    rw [embedFold_getElem?_of_none parse _ 0 vocab _ h0,
      List.getElem?_set_ne (by omega : (1 : Nat) ≠ 0), List.getElem?_replicate,
      if_pos hlen0]
  · intro h1 hlen1
    unfold build_embedding_matrix
    rw [embedFold_getElem?_of_none parse _ 1 vocab _ h1]
    exact List.getElem?_set_self (by simpa using hlen1)
  · intro p hp vec hv
    unfold build_embedding_matrix
    exact embedFold_getElem?_of_some parse _ p.1 p.2 vec hv vocab _ hp hnd
      (by rw [List.length_set, List.length_replicate]; exact hidx p hp)
  · intro p hp hp1 hnone
    unfold build_embedding_matrix
    rw [embedFold_getElem?_of_none parse _ p.2 vocab _ ?_,
      List.getElem?_set_ne (fun h => hp1 h.symm), List.getElem?_replicate,
      if_pos (hidx p hp)]
    intro q hq hqp
    have hqep : q = p :=
      List.inj_on_of_nodup_map hnd hq hp hqp
    rw [hqep]
    exact hnone

/-- Witness for C5 at the concrete inputs of the counterexample, whose
hypotheses they satisfy. -/
theorem c5_embedding_matrix_witness :
    (build_embedding_matrix parse7 [(5 : ℚ)] linesX vocabXY 1).length =
      vocabXY.length ∧
    (∀ row ∈ build_embedding_matrix parse7 [(5 : ℚ)] linesX vocabXY 1,
      row.length = 1) ∧
    ((∀ p ∈ vocabXY, p.2 = 0 →
        List.lookup p.1 (load_word_vec linesX vocabXY 1) = none) →
      0 < vocabXY.length →
      (build_embedding_matrix parse7 [(5 : ℚ)] linesX vocabXY 1)[0]? =
        some (List.replicate 1 (0 : ℚ))) ∧
    ((∀ p ∈ vocabXY, p.2 = 1 →
        List.lookup p.1 (load_word_vec linesX vocabXY 1) = none) →
      1 < vocabXY.length →
      (build_embedding_matrix parse7 [(5 : ℚ)] linesX vocabXY 1)[1]? =
        some [(5 : ℚ)]) ∧
    (∀ p ∈ vocabXY, ∀ vec,
      List.lookup p.1 (load_word_vec linesX vocabXY 1) = some vec →
      (build_embedding_matrix parse7 [(5 : ℚ)] linesX vocabXY 1)[p.2]? =
        some (vec.map parse7)) ∧
    (∀ p ∈ vocabXY, p.2 ≠ 1 →
      List.lookup p.1 (load_word_vec linesX vocabXY 1) = none →
      (build_embedding_matrix parse7 [(5 : ℚ)] linesX vocabXY 1)[p.2]? =
        some (List.replicate 1 (0 : ℚ))) :=
  c5_embedding_matrix parse7 [(5 : ℚ)] linesX vocabXY 1 (by decide) (by decide)
    (by decide) (by decide)

end SenticGCN
